import Mathlib

/-!
Verification of the longitudinal RF-bucket matching and sampling engine of
`particles/generators.py`: the stationary exponential density
(`StationaryExponential`), the variance-estimation quadratures
(`RFBucket._compute_std_quad/_cumtrapz/_romberg`), the fixed-point bucket
matcher (`RFBucket._set_target_std` with its feasibility pre-check
`RFBucket._test_maximum_std`) and the rejection sampler (`RFBucket.generate`),
shallowly embedded over the rationals.

Modelling conventions: python floats are modelled as exact rationals; the
transcendental library functions `np.exp` and `np.sqrt` are abstract function
parameters of type `ℚ → ℚ`; the non-finite values (NaN/Inf) that float
division by a non-positive normalization produces in the quadrature routines
are modelled explicitly by `NpVal.nonfinite`; the shared global numpy random
stream consumed by `RFBucket.generate` is an explicit list of uniform draws;
scipy's adaptive `dblquad` and bilinear `interp2d` are abstract function
parameters (external collaborators).  Inside the matcher's iteration the
variance strategy `self._compute_std` is an abstract finite-rational-valued
function parameter: the iteration arithmetic is modelled on the finite
(non-NaN) float behaviours.
-/

/-- Value of a numpy floating-point computation: either a finite number or a
non-finite result (NaN or Inf) as produced by division by zero or the square
root of a negative number. -/
inductive NpVal where
  | num (q : ℚ)
  | nonfinite
deriving DecidableEq

/-- Model of class `StationaryExponential` (generators.py): the Hamiltonian
`H` (owned reference), the mutable scale `H0` and the cut-off `Hmax`. -/
structure StationaryExponential where
  H : ℚ → ℚ → ℚ
  H0 : ℚ
  Hmax : ℚ

/-- Constructor `StationaryExponential.__init__(H)`: sets `self.H0 = 1` and
`self.Hmax = H(0, 0)` (the Hamiltonian at the origin). -/
def StationaryExponential.init (H : ℚ → ℚ → ℚ) : StationaryExponential :=
  { H := H, H0 := 1, Hmax := H 0 0 }

/-- Method `StationaryExponential.function(z, dp)`, with `np.exp` passed as
the abstract parameter `exp`:
`(np.exp(H(z, dp)/H0) - 1) / (np.exp(Hmax/H0) - 1)`. -/
def StationaryExponential.function (exp : ℚ → ℚ) (se : StationaryExponential)
    (z dp : ℚ) : ℚ :=
  (exp (se.H z dp / se.H0) - 1) / (exp (se.Hmax / se.H0) - 1)

/-- Written from the spec's words, for comparison with the source definition:
`psi(z,dp) = (exp(H(z,dp)/H0) - 1) / (exp(Hmax/H0) - 1)`, a pure function of
the value `H(z,dp)` together with the current `H0` and `Hmax`. -/
def psiSpecFormula (exp : ℚ → ℚ) (H0 Hmax Hval : ℚ) : ℚ :=
  (exp (Hval / H0) - 1) / (exp (Hmax / H0) - 1)

/-- C3: `StationaryExponential.function` equals
`(exp(H(z,dp)/H0) - 1) / (exp(Hmax/H0) - 1)` for every `(z, dp)`, and is a
pure function of the current `H0` and `Hmax` (the value depends only on
`H(z, dp)`, `H0` and `Hmax`, as the right-hand side exhibits; the embedding
is state-free, so there is no side effect). -/
theorem stationaryExponential_function_spec (exp : ℚ → ℚ)
    (se : StationaryExponential) (z dp : ℚ) :
    se.function exp z dp = psiSpecFormula exp se.H0 se.Hmax (se.H z dp) := rfl

/-- C8: for `H0 > 0` and `Hmax > 0`, any point with `0 < H(z,dp) ≤ Hmax`
(strictly inside the separatrix) has `0 < psi(z,dp) ≤ 1`, and any point on
the separatrix (`H(z,dp) = 0`) has `psi(z,dp) = 0`.  `np.exp` enters through
the hypotheses that `exp` is strictly monotone with `exp 0 = 1`. -/
theorem stationaryExponential_function_bounds (exp : ℚ → ℚ)
    (hmono : StrictMono exp) (hone : exp 0 = 1)
    (se : StationaryExponential) (hH0 : 0 < se.H0) (hHmax : 0 < se.Hmax)
    (z dp : ℚ) :
    (0 < se.H z dp → se.H z dp ≤ se.Hmax →
      0 < se.function exp z dp ∧ se.function exp z dp ≤ 1) ∧
    (se.H z dp = 0 → se.function exp z dp = 0) := by
  constructor
  · intro hpos hle
    have hden : 0 < exp (se.Hmax / se.H0) - 1 := by
      have : (0 : ℚ) < se.Hmax / se.H0 := div_pos hHmax hH0
      have := hmono this
      rw [hone] at this
      linarith
    have hnum : 0 < exp (se.H z dp / se.H0) - 1 := by
      have : (0 : ℚ) < se.H z dp / se.H0 := div_pos hpos hH0
      have := hmono this
      rw [hone] at this
      linarith
    have hud : exp (se.H z dp / se.H0) - 1 ≤ exp (se.Hmax / se.H0) - 1 := by
      have hdiv : se.H z dp / se.H0 ≤ se.Hmax / se.H0 :=
        (div_le_div_iff_of_pos_right hH0).mpr hle
      have := hmono.monotone hdiv
      linarith
    refine ⟨div_pos hnum hden, ?_⟩
    exact (div_le_one hden).mpr hud
  · intro hzero
    unfold StationaryExponential.function
    rw [hzero]
    rw [zero_div, hone]
    simp

/-- Witness for C8 at a concrete density: `exp q = q + 1` (strictly monotone,
sends 0 to 1), `H0 = Hmax = 1`, a Hamiltonian worth `1/2` at the origin and
`0` elsewhere: the interior point `(0, 0)` gets a density in `(0, 1]` and the
separatrix point `(1, 0)` gets density `0`. -/
theorem stationaryExponential_function_bounds_witness :
    (0 < (StationaryExponential.mk (fun z _ => if z = 0 then 1/2 else 0) 1 1).function
        (fun q => q + 1) 0 0 ∧
      (StationaryExponential.mk (fun z _ => if z = 0 then 1/2 else 0) 1 1).function
        (fun q => q + 1) 0 0 ≤ 1) ∧
    (StationaryExponential.mk (fun z _ => if z = 0 then 1/2 else 0) 1 1).function
        (fun q => q + 1) 1 0 = 0 := by
  constructor
  · exact
      (stationaryExponential_function_bounds (fun q => q + 1)
        (fun a b h => by simpa using h) (by norm_num)
        (StationaryExponential.mk (fun z _ => if z = 0 then 1/2 else 0) 1 1)
        (by norm_num) (by norm_num) 0 0).1 (by norm_num) (by norm_num)
  · exact
      (stationaryExponential_function_bounds (fun q => q + 1)
        (fun a b h => by simpa using h) (by norm_num)
        (StationaryExponential.mk (fun z _ => if z = 0 then 1/2 else 0) 1 1)
        (by norm_num) (by norm_num) 1 0).2 (by norm_num)

/-- numpy `np.linspace(a, b, n)`: `n` evenly spaced points from `a` to `b`
inclusive (exact rational arithmetic). -/
def linspace (a b : ℚ) (n : ℕ) : List ℚ :=
  (List.range n).map (fun (i : ℕ) => a + (b - a) * (i : ℚ) / ((n : ℚ) - 1))

/-- Total trapezoid integral: the last entry of scipy `cumtrapz(z, y)`,
`Σ (y_{i+1} - y_i) * (z_i + z_{i+1}) / 2`. -/
def trapzTotal : List ℚ → List ℚ → ℚ
  | z1 :: z2 :: zs, y1 :: y2 :: ys =>
      (y2 - y1) * (z1 + z2) / 2 + trapzTotal (z2 :: zs) (y2 :: ys)
  | _, _ => 0

/-- The composite trapezoid estimate on `2 ^ i` equal subintervals of the
`n`-interval sample list `ys` with spacing `dx`, the column-0 entry of the
Romberg tableau built by scipy `romb`. -/
def rombTrapEst (ys : List ℚ) (dx : ℚ) (n : ℕ) (i : ℕ) : ℚ :=
  ((n : ℚ) * dx / (2 : ℚ) ^ i) *
    ((ys.getD 0 0 + ys.getD n 0) / 2 +
      ((List.range (2 ^ i - 1)).map (fun m => ys.getD ((m + 1) * n / 2 ^ i) 0)).sum)

/-- Entry `R(i, j)` of the Romberg tableau of scipy `romb` (exact
arithmetic): column 0 is the refined trapezoid estimate, and
`R(i, j+1) = R(i, j) + (R(i, j) - R(i-1, j)) / (4^(j+1) - 1)` is Richardson
extrapolation. -/
def rombR (ys : List ℚ) (dx : ℚ) (n : ℕ) : ℕ → ℕ → ℚ
  | i, 0 => rombTrapEst ys dx n i
  | i, j + 1 =>
      rombR ys dx n i j +
        (rombR ys dx n i j - rombR ys dx n (i - 1) j) / ((4 : ℚ) ^ (j + 1) - 1)

/-- scipy `romb(ys, dx)` on `2 ^ k + 1` samples spaced `dx` apart: the
diagonal entry `R(k, k)` of the Romberg tableau. -/
def romb (ys : List ℚ) (dx : ℚ) : ℚ :=
  rombR ys dx (ys.length - 1) (Nat.log2 (ys.length - 1)) (Nat.log2 (ys.length - 1))

/-- The final step `np.sqrt(V / Q)` shared by the three variance routines,
with `np.sqrt` abstract: float division by `Q = 0` gives NaN or Inf, and the
square root of a negative quotient gives NaN — both modelled by
`NpVal.nonfinite`.  No guard and no exception exists in the source: the value
is returned to the caller either way. -/
def npSqrtDiv (sqrt : ℚ → ℚ) (V Q : ℚ) : NpVal :=
  if Q = 0 then NpVal.nonfinite
  else if V / Q < 0 then NpVal.nonfinite
  else NpVal.num (sqrt (V / Q))

/-- `RFBucket._compute_std_quad`: both `Q = ∫∫ psi` and `V = ∫∫ x² psi` are
delegated to scipy `dblquad` (an external adaptive integrator, abstract
parameter `dblq`, its error estimate dropped as in the source), then
`np.sqrt(V/Q)` is returned. -/
def RFBucket.compute_std_quad (sqrt : ℚ → ℚ)
    (dblq : (ℚ → ℚ → ℚ) → (ℚ → ℚ) → ℚ → ℚ → ℚ)
    (psi : ℚ → ℚ → ℚ) (p_sep : ℚ → ℚ) (xmin xmax : ℚ) : NpVal :=
  let Q := dblq (fun x y => psi x y) p_sep xmin xmax
  let V := dblq (fun x y => x ^ 2 * psi x y) p_sep xmin xmax
  npSqrtDiv sqrt V Q

/-- One `x`-slice of the loop body of `RFBucket._compute_std_cumtrapz`:
`y = np.linspace(0, p_sep(x), 257); cumtrapz(f(x, y), y)[-1]` for the
integrand `f`. -/
def cumtrapzSlice (f : ℚ → ℚ → ℚ) (p_sep : ℚ → ℚ) (x : ℚ) : ℚ :=
  trapzTotal ((linspace 0 (p_sep x) 257).map (fun yv => f x yv))
    (linspace 0 (p_sep x) 257)

/-- One `x`-slice of the loop body of `RFBucket._compute_std_romberg`:
`y = np.linspace(0, p_sep(x), 257); dy = y[1] - y[0]; romb(f(x, y), dy)`. -/
def rombSlice (f : ℚ → ℚ → ℚ) (p_sep : ℚ → ℚ) (x : ℚ) : ℚ :=
  romb ((linspace 0 (p_sep x) 257).map (fun yv => f x yv))
    ((linspace 0 (p_sep x) 257).getD 1 0 - (linspace 0 (p_sep x) 257).getD 0 0)

/-- `RFBucket._compute_std_cumtrapz`: a 257-point grid in `x`; per slice a
257-point grid in `y` from `0` to `p_sep(x)`, cumulative trapezoid
integration in `y` (its last entry), summed over slices and scaled by `dx`;
returns `np.sqrt(V/Q)`. -/
def RFBucket.compute_std_cumtrapz (sqrt : ℚ → ℚ) (psi : ℚ → ℚ → ℚ)
    (p_sep : ℚ → ℚ) (xmin xmax : ℚ) : NpVal :=
  let x_arr := linspace xmin xmax 257
  let dx := x_arr.getD 1 0 - x_arr.getD 0 0
  let Q := (x_arr.map (cumtrapzSlice psi p_sep)).sum * dx
  let V := (x_arr.map (cumtrapzSlice (fun x yv => x ^ 2 * psi x yv) p_sep)).sum * dx
  npSqrtDiv sqrt V Q

/-- `RFBucket._compute_std_romberg`: same grid structure as the trapezoid
variant but integrating each `y`-slice with scipy `romb` at spacing
`dy = y[1] - y[0]`; returns `np.sqrt(V/Q)`. -/
def RFBucket.compute_std_romberg (sqrt : ℚ → ℚ) (psi : ℚ → ℚ → ℚ)
    (p_sep : ℚ → ℚ) (xmin xmax : ℚ) : NpVal :=
  let x_arr := linspace xmin xmax 257
  let dx := x_arr.getD 1 0 - x_arr.getD 0 0
  let Q := (x_arr.map (rombSlice psi p_sep)).sum * dx
  let V := (x_arr.map (rombSlice (fun x yv => x ^ 2 * psi x yv) p_sep)).sum * dx
  npSqrtDiv sqrt V Q

/-- A linspace with equal endpoints is a constant list. -/
lemma linspace_same (a : ℚ) (n : ℕ) : linspace a a n = List.replicate n a := by
  unfold linspace
  have h : (fun i : ℕ => a + (a - a) * (i : ℚ) / ((n : ℚ) - 1)) = fun _ : ℕ => a := by
    funext i
    ring
  rw [h, List.map_const', List.length_range]

/-- The spacing read off a constant sample list is zero. -/
lemma replicate_getD_sub (a : ℚ) (n : ℕ) (h1 : 1 < n) :
    (List.replicate n a).getD 1 0 - (List.replicate n a).getD 0 0 = 0 := by
  rw [List.getD_eq_getElem _ _ (by simpa using h1),
    List.getD_eq_getElem _ _ (by simp; omega)]
  simp

/-- The trapezoid total over a constant sample grid is zero: every grid
increment vanishes. -/
lemma trapzTotal_replicate (a : ℚ) :
    ∀ (z : List ℚ) (n : ℕ), trapzTotal z (List.replicate n a) = 0 := by
  intro z
  induction z with
  | nil => intro n; rfl
  | cons z1 zs IH =>
    intro n
    cases zs with
    | nil =>
      match n with
      | 0 => rfl
      | 1 => rfl
      | m + 2 => rfl
    | cons z2 zs2 =>
      match n with
      | 0 => rfl
      | 1 => rfl
      | m + 2 =>
        have h := IH (m + 1)
        simp only [List.replicate] at h ⊢
        rw [trapzTotal, h]
        ring

/-- The level-`i` trapezoid estimate at spacing zero is zero. -/
lemma rombTrapEst_dx_zero (ys : List ℚ) (n i : ℕ) : rombTrapEst ys 0 n i = 0 := by
  simp [rombTrapEst]

/-- Every Romberg tableau entry at spacing zero is zero. -/
lemma rombR_dx_zero (ys : List ℚ) (n : ℕ) : ∀ (j i : ℕ), rombR ys 0 n i j = 0 := by
  intro j
  induction j with
  | zero => intro i; simp [rombR, rombTrapEst_dx_zero]
  | succ j IH => intro i; simp [rombR, IH]

/-- scipy `romb` at sample spacing zero returns zero. -/
lemma romb_dx_zero (ys : List ℚ) : romb ys 0 = 0 := by
  unfold romb
  exact rombR_dx_zero ys _ _ _

/-- A trapezoid slice over an everywhere-zero separatrix vanishes. -/
lemma cumtrapzSlice_zero_sep (f : ℚ → ℚ → ℚ) (x : ℚ) :
    cumtrapzSlice f (fun _ => 0) x = 0 := by
  unfold cumtrapzSlice
  rw [linspace_same]
  exact trapzTotal_replicate 0 _ 257

/-- A Romberg slice over an everywhere-zero separatrix vanishes. -/
lemma rombSlice_zero_sep (f : ℚ → ℚ → ℚ) (x : ℚ) :
    rombSlice f (fun _ => 0) x = 0 := by
  unfold rombSlice
  rw [linspace_same]
  rw [replicate_getD_sub 0 257 (by norm_num), romb_dx_zero]

/-- The Q-sum of the trapezoid routine is zero over a zero separatrix. -/
lemma cumtrapz_qsum_zero (psi : ℚ → ℚ → ℚ) (xmin xmax : ℚ) :
    ((linspace xmin xmax 257).map (cumtrapzSlice psi (fun _ => 0))).sum = 0 := by
  apply List.sum_eq_zero
  intro q hq
  simp only [List.mem_map] at hq
  obtain ⟨x, _, rfl⟩ := hq
  exact cumtrapzSlice_zero_sep psi x

/-- The Q-sum of the Romberg routine is zero over a zero separatrix. -/
lemma romb_qsum_zero (psi : ℚ → ℚ → ℚ) (xmin xmax : ℚ) :
    ((linspace xmin xmax 257).map (rombSlice psi (fun _ => 0))).sum = 0 := by
  apply List.sum_eq_zero
  intro q hq
  simp only [List.mem_map] at hq
  obtain ⟨x, _, rfl⟩ := hq
  exact rombSlice_zero_sep psi x

/-- Counterexample to C7 at a concrete input: for the constant density `1`
and a separatrix function returning `0` everywhere on `(0, 1)`, both grid
quadrature routines compute normalization `Q = 0` and RETURN the non-finite
float `np.sqrt(V/Q)` to the caller; no `DegenerateIntegration` (or any other)
error is raised — the source has no guard on `Q` at all. -/
theorem compute_std_degenerate_counterexample :
    RFBucket.compute_std_cumtrapz (fun q => q) (fun _ _ => 1) (fun _ => 0) 0 1 =
      NpVal.nonfinite ∧
    RFBucket.compute_std_romberg (fun q => q) (fun _ _ => 1) (fun _ => 0) 0 1 =
      NpVal.nonfinite := by
  constructor
  · unfold RFBucket.compute_std_cumtrapz
    dsimp only
    simp only [cumtrapz_qsum_zero, zero_mul]
    unfold npSqrtDiv
    simp
  · unfold RFBucket.compute_std_romberg
    dsimp only
    simp only [romb_qsum_zero, zero_mul]
    unfold npSqrtDiv
    simp

/-- C7 amended: when the separatrix function returns `0` everywhere, every
slice integral vanishes, so the normalization `Q` is `0` in the trapezoid
and Romberg routines — and whenever `dblquad` likewise reports `Q = 0` in the
adaptive routine — each of the three variance routines returns the non-finite
value `np.sqrt(V/0)` (NaN/Inf) to its caller instead of raising an error:
no `DegenerateIntegration` exception exists in the code. -/
theorem compute_std_zero_separatrix (sqrt : ℚ → ℚ) (psi : ℚ → ℚ → ℚ)
    (xmin xmax : ℚ) (dblq : (ℚ → ℚ → ℚ) → (ℚ → ℚ) → ℚ → ℚ → ℚ)
    (hq : dblq (fun x y => psi x y) (fun _ => 0) xmin xmax = 0) :
    RFBucket.compute_std_cumtrapz sqrt psi (fun _ => 0) xmin xmax =
      NpVal.nonfinite ∧
    RFBucket.compute_std_romberg sqrt psi (fun _ => 0) xmin xmax =
      NpVal.nonfinite ∧
    RFBucket.compute_std_quad sqrt dblq psi (fun _ => 0) xmin xmax =
      NpVal.nonfinite := by
  refine ⟨?_, ?_, ?_⟩
  · unfold RFBucket.compute_std_cumtrapz
    dsimp only
    simp only [cumtrapz_qsum_zero, zero_mul]
    unfold npSqrtDiv
    simp
  · unfold RFBucket.compute_std_romberg
    dsimp only
    simp only [romb_qsum_zero, zero_mul]
    unfold npSqrtDiv
    simp
  · unfold RFBucket.compute_std_quad
    dsimp only
    rw [hq]
    unfold npSqrtDiv
    simp

/-- Witness for C7's amended statement: the adaptive route at a concrete
degenerate integrator also returns the non-finite value. -/
theorem compute_std_zero_separatrix_witness :
    RFBucket.compute_std_quad (fun q => q) (fun _ _ _ _ => 0) (fun _ _ => 1)
      (fun _ => 0) 0 1 = NpVal.nonfinite :=
  (compute_std_zero_separatrix (fun q => q) (fun _ _ => 1) 0 1
    (fun _ _ _ _ => 0) rfl).2.2

/-- The `rfsystem` collaborator handed to `RFBucket.__init__`: supplies the
Hamiltonian, the separatrix function, the position extrema, the bucket
bounding box `z_sep`/`p_sep`, the scale map `H0` and the circumference. -/
structure RFSystemModel where
  circumference : ℚ
  hamiltonian : ℚ → ℚ → ℚ
  separatrix : ℚ → ℚ
  z_extrema : ℚ × ℚ
  z_sep : ℚ × ℚ
  p_sep : ℚ
  H0 : ℚ → ℚ

/-- Model of class `RFBucket`: the attributes its `__init__` copies. -/
structure RFBucket where
  sigma_z : ℚ
  circumference : ℚ
  hamiltonian : ℚ → ℚ → ℚ
  separatrix : ℚ → ℚ
  z_extrema : ℚ × ℚ
  z_sep : ℚ × ℚ
  p_sep : ℚ
  H0 : ℚ → ℚ

/-- `RFBucket.__init__(sigma_z, rfsystem)`: stores the target rms bunch
length and the provider's data (`self._compute_std` is set to the cumtrapz
routine; in this embedding the strategy travels as the explicit parameter
`stdF` of the matcher). -/
def RFBucket.init (sigma_z : ℚ) (rfsystem : RFSystemModel) : RFBucket :=
  { sigma_z := sigma_z
    circumference := rfsystem.circumference
    hamiltonian := rfsystem.hamiltonian
    separatrix := rfsystem.separatrix
    z_extrema := rfsystem.z_extrema
    z_sep := rfsystem.z_sep
    p_sep := rfsystem.p_sep
    H0 := rfsystem.H0 }

/-- One diagnostic line `print counter, zH, zS, eps` of the matcher loop,
printed before the `zH` update of its iteration. -/
structure MatchTraceRow where
  counter : ℕ
  zH : ℚ
  zS : ℚ
  eps : ℚ
deriving DecidableEq

/-- Result of the matching loop: either the loop condition fails and the
current density object is handed on (the source returns `psi.function`), or
the iteration budget is exceeded and the process is terminated by
`sys.exit(-1)` right after the four diagnostic lines are printed — a fatal,
surfaced abort that never returns a density. -/
inductive MatchResult where
  | converged (psi : StationaryExponential) (zH : ℚ) (counter : ℕ)
  | aborted

/-- Whether the matching loop exited through its condition. -/
def MatchResult.isConverged : MatchResult → Bool
  | MatchResult.converged _ _ _ => true
  | MatchResult.aborted => false

/-- The density object carried by a converged result. -/
def MatchResult.psiOf : MatchResult → Option StationaryExponential
  | MatchResult.converged psi _ _ => some psi
  | MatchResult.aborted => none

/-- The loop body's call
`self._compute_std(psi.function, self.separatrix, self.z_sep[0], self.z_sep[1])`,
the strategy `self._compute_std` abstracted as the finite-rational-valued
parameter `stdF`. -/
def loopZS (exp : ℚ → ℚ) (stdF : (ℚ → ℚ → ℚ) → (ℚ → ℚ) → ℚ → ℚ → ℚ)
    (b : RFBucket) (psi : StationaryExponential) : ℚ :=
  stdF (psi.function exp) b.separatrix b.z_sep.1 b.z_sep.2

/-- Python's `abs` on a float, as an executable rational function. -/
def ratAbs (q : ℚ) : ℚ := if q < 0 then -q else q

/-- `ratAbs` agrees with the absolute value. -/
lemma ratAbs_eq_abs (q : ℚ) : ratAbs q = |q| := by
  unfold ratAbs
  rcases lt_or_le q 0 with h | h
  · rw [if_pos h, abs_of_neg h]
  · rw [if_neg (not_lt.mpr h), abs_of_nonneg h]

/-- The `while abs(eps) > 1e-4` loop of `RFBucket._set_target_std`.  Besides
the result it returns the trace of the rows `(counter, zH, zS, eps)` the
source prints.  The body recomputes `zS`, sets `eps = zS - z0` (`z0` is never
reassigned), prints, damps `zH -= 0.5 * eps`, refreshes
`psi.H0 = self.H0(zH)`, increments `counter` and aborts once `counter`
passes 100.  The extra argument `fuel` is only the structural recursion
budget: callers pass `101`, and since the `counter + 1 > 100` abort always
fires first, the `fuel = 0` fallback (which mirrors the abort) is never
reached from `RFBucket._set_target_std`. -/
def matchLoop (exp : ℚ → ℚ) (stdF : (ℚ → ℚ → ℚ) → (ℚ → ℚ) → ℚ → ℚ → ℚ)
    (b : RFBucket) (z0 : ℚ) (fuel : ℕ) (psi : StationaryExponential)
    (zH eps : ℚ) (counter : ℕ) : MatchResult × List MatchTraceRow :=
  if ratAbs eps > 1e-4 then
    let zS := loopZS exp stdF b psi
    let eps2 := zS - z0
    let row : MatchTraceRow := ⟨counter, zH, zS, eps2⟩
    let zH2 := zH - 0.5 * eps2
    let psi2 := { psi with H0 := b.H0 zH2 }
    if counter + 1 > 100 then (MatchResult.aborted, [row])
    else
      match fuel with
      | 0 => (MatchResult.aborted, [row])
      | fuel2 + 1 =>
        let rest := matchLoop exp stdF b z0 fuel2 psi2 zH2 eps2 (counter + 1)
        (rest.1, row :: rest.2)
  else (MatchResult.converged psi zH counter, [])

/-- What the feasibility pre-check leaves behind: the density object with
`H0` set to the full-bucket scale (`Hmax` untouched), the three maximal-rms
estimates it prints, and the three warning flags. -/
structure PrecheckOutput where
  psi : StationaryExponential
  zSs : List NpVal
  warnings : List Bool

/-- The source's warning condition `sigma > zS * 0.95`; a non-finite `zS`
compares false, as floats do. -/
def npWarn (sigma : ℚ) (zS : NpVal) : Bool :=
  match zS with
  | NpVal.num q => decide (sigma > q * 0.95)
  | NpVal.nonfinite => false

/-- `RFBucket._test_maximum_std(psi, sigma)`: sets
`psi.H0 = self.H0(self.circumference)`, then evaluates the maximal rms bunch
length with each of the three variance routines in turn (quad, cumtrapz,
romberg), printing each and printing a warning whenever `sigma > zS * 0.95`.
The warnings are console prints only: execution always continues. -/
def RFBucket.test_maximum_std (exp sqrt : ℚ → ℚ)
    (dblq : (ℚ → ℚ → ℚ) → (ℚ → ℚ) → ℚ → ℚ → ℚ) (b : RFBucket)
    (psi : StationaryExponential) (sigma : ℚ) : PrecheckOutput :=
  let psi1 := { psi with H0 := b.H0 b.circumference }
  let zq := RFBucket.compute_std_quad sqrt dblq (psi1.function exp)
    b.separatrix b.z_sep.1 b.z_sep.2
  let zc := RFBucket.compute_std_cumtrapz sqrt (psi1.function exp)
    b.separatrix b.z_sep.1 b.z_sep.2
  let zr := RFBucket.compute_std_romberg sqrt (psi1.function exp)
    b.separatrix b.z_sep.1 b.z_sep.2
  ⟨psi1, [zq, zc, zr], [npWarn sigma zq, npWarn sigma zc, npWarn sigma zr]⟩

/-- Everything observable about one `RFBucket._set_target_std` call: the loop
result and printed trace, the density object as the pre-check used it and as
the loop received it, and the pre-check estimates and warnings. -/
structure MatchOutput where
  result : MatchResult
  trace : List MatchTraceRow
  precheckPsi : StationaryExponential
  loopPsi : StationaryExponential
  zSs : List NpVal
  warnings : List Bool

/-- `RFBucket._set_target_std(psi, sigma)`: first runs the feasibility
pre-check (which mutates `psi.H0` while `psi.Hmax` still carries its
constructor value), only then fixes
`psi.Hmax = np.amax(self.hamiltonian(self.z_extrema, 0))`, initializes
`counter = 0`, `z0 = sigma`, `eps = 1`, `zH = z0`,
`psi.H0 = self.H0(zH)`, and enters the matching loop. -/
def RFBucket.set_target_std (exp sqrt : ℚ → ℚ)
    (dblq : (ℚ → ℚ → ℚ) → (ℚ → ℚ) → ℚ → ℚ → ℚ)
    (stdF : (ℚ → ℚ → ℚ) → (ℚ → ℚ) → ℚ → ℚ → ℚ) (b : RFBucket)
    (psi : StationaryExponential) (sigma : ℚ) : MatchOutput :=
  let pre := RFBucket.test_maximum_std exp sqrt dblq b psi sigma
  let psi2 := { pre.psi with
    Hmax := max (b.hamiltonian b.z_extrema.1 0) (b.hamiltonian b.z_extrema.2 0) }
  let z0 := sigma
  let zH := z0
  let psi3 := { psi2 with H0 := b.H0 zH }
  let res := matchLoop exp stdF b z0 101 psi3 zH 1 0
  ⟨res.1, res.2, pre.psi, psi3, pre.zSs, pre.warnings⟩

/-- Unfolding the matching loop when the condition fails: the loop exits at
once with the current state and an empty remaining trace. -/
lemma matchLoop_of_not_gt (exp : ℚ → ℚ) (stdF : (ℚ → ℚ → ℚ) → (ℚ → ℚ) → ℚ → ℚ → ℚ)
    (b : RFBucket) (z0 : ℚ) (fuel : ℕ) (psi : StationaryExponential)
    (zH eps : ℚ) (c : ℕ) (hgt : ¬(|eps| > 1e-4)) :
    matchLoop exp stdF b z0 fuel psi zH eps c =
      (MatchResult.converged psi zH c, []) := by
  rw [matchLoop]
  simp only [ratAbs_eq_abs]
  rw [if_neg hgt]

/-- Unfolding the matching loop when the condition holds and the incremented
counter passes 100: the body prints one more row and aborts. -/
lemma matchLoop_gt_abort (exp : ℚ → ℚ) (stdF : (ℚ → ℚ → ℚ) → (ℚ → ℚ) → ℚ → ℚ → ℚ)
    (b : RFBucket) (z0 : ℚ) (fuel : ℕ) (psi : StationaryExponential)
    (zH eps : ℚ) (c : ℕ) (hgt : |eps| > 1e-4) (hab : c + 1 > 100) :
    matchLoop exp stdF b z0 fuel psi zH eps c =
      (MatchResult.aborted,
        [⟨c, zH, loopZS exp stdF b psi, loopZS exp stdF b psi - z0⟩]) := by
  rw [matchLoop]
  simp only [ratAbs_eq_abs]
  rw [if_pos hgt]
  rw [if_pos hab]

/-- Unfolding the matching loop when the condition holds and the budget is
not yet exhausted: one row is printed and the loop continues from the damped
state. -/
lemma matchLoop_gt_cont (exp : ℚ → ℚ) (stdF : (ℚ → ℚ → ℚ) → (ℚ → ℚ) → ℚ → ℚ → ℚ)
    (b : RFBucket) (z0 : ℚ) (fuel : ℕ) (psi : StationaryExponential)
    (zH eps : ℚ) (c : ℕ) (hgt : |eps| > 1e-4) (hab : ¬(c + 1 > 100)) :
    matchLoop exp stdF b z0 (fuel + 1) psi zH eps c =
      ((matchLoop exp stdF b z0 fuel
          { psi with H0 := b.H0 (zH - 0.5 * (loopZS exp stdF b psi - z0)) }
          (zH - 0.5 * (loopZS exp stdF b psi - z0))
          (loopZS exp stdF b psi - z0) (c + 1)).1,
        ⟨c, zH, loopZS exp stdF b psi, loopZS exp stdF b psi - z0⟩ ::
          (matchLoop exp stdF b z0 fuel
            { psi with H0 := b.H0 (zH - 0.5 * (loopZS exp stdF b psi - z0)) }
            (zH - 0.5 * (loopZS exp stdF b psi - z0))
            (loopZS exp stdF b psi - z0) (c + 1)).2) := by
  rw [matchLoop]
  simp only [ratAbs_eq_abs]
  rw [if_pos hgt]
  rw [if_neg hab]

/-- Unfolding the matching loop when the condition holds, the budget check
passes, but the structural fuel is exhausted: the fallback mirrors the
abort.  This state is unreachable from `RFBucket._set_target_std`, which
supplies fuel `101`. -/
lemma matchLoop_gt_zero_fuel (exp : ℚ → ℚ)
    (stdF : (ℚ → ℚ → ℚ) → (ℚ → ℚ) → ℚ → ℚ → ℚ)
    (b : RFBucket) (z0 : ℚ) (psi : StationaryExponential)
    (zH eps : ℚ) (c : ℕ) (hgt : |eps| > 1e-4) (hab : ¬(c + 1 > 100)) :
    matchLoop exp stdF b z0 0 psi zH eps c =
      (MatchResult.aborted,
        [⟨c, zH, loopZS exp stdF b psi, loopZS exp stdF b psi - z0⟩]) := by
  rw [matchLoop]
  simp only [ratAbs_eq_abs]
  rw [if_pos hgt]
  rw [if_neg hab]

/-- Every printed row of the matching loop follows the source's update rule:
the residual is `zS` minus the fixed target `z0`, counters advance one per
row from the start, the first row carries the incoming guess, and consecutive
rows are related by the damped update `zH -= 0.5 * eps`. -/
lemma matchLoop_trace_spec (exp : ℚ → ℚ)
    (stdF : (ℚ → ℚ → ℚ) → (ℚ → ℚ) → ℚ → ℚ → ℚ) (b : RFBucket) (z0 : ℚ) :
    ∀ (fuel c : ℕ) (psi : StationaryExponential) (zH eps : ℚ),
      ∀ (i : ℕ) (r : MatchTraceRow),
        (matchLoop exp stdF b z0 fuel psi zH eps c).2.get? i = some r →
        (r.eps = r.zS - z0 ∧ r.counter = c + i ∧ (i = 0 → r.zH = zH)) ∧
        (∀ r' : MatchTraceRow,
          (matchLoop exp stdF b z0 fuel psi zH eps c).2.get? (i + 1) = some r' →
          r'.zH = r.zH - 0.5 * r.eps ∧ r'.counter = r.counter + 1) := by
  intro fuel
  induction fuel with
  | zero =>
    intro c psi zH eps i r hr
    by_cases hgt : |eps| > 1e-4
    · have hshape : (matchLoop exp stdF b z0 0 psi zH eps c).2 =
          [⟨c, zH, loopZS exp stdF b psi, loopZS exp stdF b psi - z0⟩] := by
        by_cases hab : c + 1 > 100
        · rw [matchLoop_gt_abort exp stdF b z0 0 psi zH eps c hgt hab]
        · rw [matchLoop_gt_zero_fuel exp stdF b z0 psi zH eps c hgt hab]
      rw [hshape] at hr ⊢
      cases i with
      | zero =>
        simp only [List.get?_cons_zero, Option.some.injEq] at hr
        subst hr
        refine ⟨⟨rfl, by simp, fun _ => rfl⟩, ?_⟩
        intro r' hr'
        simp at hr'
      | succ j =>
        simp at hr
    · rw [matchLoop_of_not_gt exp stdF b z0 0 psi zH eps c hgt] at hr
      simp at hr
  | succ fuel IH =>
    intro c psi zH eps i r hr
    by_cases hgt : |eps| > 1e-4
    · by_cases hab : c + 1 > 100
      · rw [matchLoop_gt_abort exp stdF b z0 (fuel + 1) psi zH eps c hgt hab] at hr ⊢
        cases i with
        | zero =>
          simp only [List.get?_cons_zero, Option.some.injEq] at hr
          subst hr
          refine ⟨⟨rfl, by simp, fun _ => rfl⟩, ?_⟩
          intro r' hr'
          simp at hr'
        | succ j =>
          simp at hr
      · rw [matchLoop_gt_cont exp stdF b z0 fuel psi zH eps c hgt hab] at hr ⊢
        cases i with
        | zero =>
          simp only [List.get?_cons_zero, Option.some.injEq] at hr
          subst hr
          refine ⟨⟨rfl, by simp, fun _ => rfl⟩, ?_⟩
          intro r' hr'
          simp only [List.get?_cons_succ] at hr'
          have h0 := (IH (c + 1) _ _ _ 0 r' hr').1
          exact ⟨by simpa using h0.2.2 rfl, by simpa using h0.2.1⟩
        | succ j =>
          simp only [List.get?_cons_succ] at hr
          have hj := IH (c + 1) _ _ _ j r hr
          refine ⟨⟨hj.1.1, ?_, fun h => absurd h (Nat.succ_ne_zero j)⟩, ?_⟩
          · have := hj.1.2.1
            omega
          · intro r' hr'
            simp only [List.get?_cons_succ] at hr'
            exact hj.2 r' hr'
    · rw [matchLoop_of_not_gt exp stdF b z0 (fuel + 1) psi zH eps c hgt] at hr
      simp at hr

/-- C1 amended: in `RFBucket._set_target_std` every printed iteration has
residual `eps = zS - sigma` where `sigma` is the FIXED target (`z0` is never
reassigned; the residual is not taken against the current guess), the guess
is updated by `z_guess -= 0.5 * residual` between consecutive iterations,
and the guess starts at the target `sigma`. -/
theorem set_target_std_residual_update (exp sqrt : ℚ → ℚ)
    (dblq : (ℚ → ℚ → ℚ) → (ℚ → ℚ) → ℚ → ℚ → ℚ)
    (stdF : (ℚ → ℚ → ℚ) → (ℚ → ℚ) → ℚ → ℚ → ℚ) (b : RFBucket)
    (psi : StationaryExponential) (sigma : ℚ) :
    (∀ (i : ℕ) (r : MatchTraceRow),
      (RFBucket.set_target_std exp sqrt dblq stdF b psi sigma).trace.get? i =
        some r → r.eps = r.zS - sigma ∧ r.counter = i) ∧
    (∀ r : MatchTraceRow,
      (RFBucket.set_target_std exp sqrt dblq stdF b psi sigma).trace.get? 0 =
        some r → r.zH = sigma) ∧
    (∀ (i : ℕ) (r r2 : MatchTraceRow),
      (RFBucket.set_target_std exp sqrt dblq stdF b psi sigma).trace.get? i =
        some r →
      (RFBucket.set_target_std exp sqrt dblq stdF b psi sigma).trace.get?
        (i + 1) = some r2 → r2.zH = r.zH - 0.5 * r.eps) := by
  unfold RFBucket.set_target_std
  dsimp only
  refine ⟨?_, ?_, ?_⟩
  · intro i r hr
    have h := (matchLoop_trace_spec exp stdF b sigma 101 0 _ _ _ i r hr).1
    exact ⟨h.1, by simpa using h.2.1⟩
  · intro r hr
    exact (matchLoop_trace_spec exp stdF b sigma 101 0 _ _ _ 0 r hr).1.2.2 rfl
  · intro i r r2 hr hr2
    exact ((matchLoop_trace_spec exp stdF b sigma 101 0 _ _ _ i r hr).2 r2 hr2).1

/-- Every row of the matching-loop trace other than the last failed the
tolerance check: the loop only continued past a row because its residual was
still larger than `1e-4` in absolute value. -/
lemma matchLoop_nonlast_gt (exp : ℚ → ℚ)
    (stdF : (ℚ → ℚ → ℚ) → (ℚ → ℚ) → ℚ → ℚ → ℚ) (b : RFBucket) (z0 : ℚ) :
    ∀ (fuel c : ℕ) (psi : StationaryExponential) (zH eps : ℚ) (i : ℕ)
      (r : MatchTraceRow),
      (matchLoop exp stdF b z0 fuel psi zH eps c).2.get? i = some r →
      i + 1 < (matchLoop exp stdF b z0 fuel psi zH eps c).2.length →
      |r.eps| > 1e-4 := by
  intro fuel
  induction fuel with
  | zero =>
    intro c psi zH eps i r hr hlen
    by_cases hgt : |eps| > 1e-4
    · have hshape : (matchLoop exp stdF b z0 0 psi zH eps c).2 =
          [⟨c, zH, loopZS exp stdF b psi, loopZS exp stdF b psi - z0⟩] := by
        by_cases hab : c + 1 > 100
        · rw [matchLoop_gt_abort exp stdF b z0 0 psi zH eps c hgt hab]
        · rw [matchLoop_gt_zero_fuel exp stdF b z0 psi zH eps c hgt hab]
      rw [hshape] at hlen
      simp only [List.length_cons, List.length_nil] at hlen
      omega
    · rw [matchLoop_of_not_gt exp stdF b z0 0 psi zH eps c hgt] at hr
      simp at hr
  | succ fuel IH =>
    intro c psi zH eps i r hr hlen
    by_cases hgt : |eps| > 1e-4
    · by_cases hab : c + 1 > 100
      · rw [matchLoop_gt_abort exp stdF b z0 (fuel + 1) psi zH eps c hgt hab]
          at hlen
        simp only [List.length_cons, List.length_nil] at hlen
        omega
      · rw [matchLoop_gt_cont exp stdF b z0 fuel psi zH eps c hgt hab]
          at hr hlen
        cases i with
        | zero =>
          simp only [List.get?_cons_zero, Option.some.injEq] at hr
          subst hr
          by_cases h2 : |loopZS exp stdF b psi - z0| > 1e-4
          · simpa using h2
          · rw [matchLoop_of_not_gt exp stdF b z0 fuel _ _ _ _ h2] at hlen
            simp at hlen
        | succ j =>
          simp only [List.get?_cons_succ] at hr
          simp only [List.length_cons] at hlen
          exact IH (c + 1) _ _ _ j r hr (by omega)
    · rw [matchLoop_of_not_gt exp stdF b z0 (fuel + 1) psi zH eps c hgt] at hr
      simp at hr

/-- When the matching loop exits through its condition, the last printed
residual is within tolerance and at most `100 - c` rows were printed. -/
lemma matchLoop_converged_spec (exp : ℚ → ℚ)
    (stdF : (ℚ → ℚ → ℚ) → (ℚ → ℚ) → ℚ → ℚ → ℚ) (b : RFBucket) (z0 : ℚ) :
    ∀ (fuel c : ℕ) (psi : StationaryExponential) (zH eps : ℚ),
      |eps| > 1e-4 →
      (matchLoop exp stdF b z0 fuel psi zH eps c).1.isConverged = true →
      ∃ r : MatchTraceRow,
        (matchLoop exp stdF b z0 fuel psi zH eps c).2.getLast? = some r ∧
        |r.eps| ≤ 1e-4 ∧
        (matchLoop exp stdF b z0 fuel psi zH eps c).2.length ≤ 100 - c := by
  intro fuel
  induction fuel with
  | zero =>
    intro c psi zH eps hgt hcv
    exfalso
    by_cases hab : c + 1 > 100
    · rw [matchLoop_gt_abort exp stdF b z0 0 psi zH eps c hgt hab] at hcv
      simp [MatchResult.isConverged] at hcv
    · rw [matchLoop_gt_zero_fuel exp stdF b z0 psi zH eps c hgt hab] at hcv
      simp [MatchResult.isConverged] at hcv
  | succ fuel IH =>
    intro c psi zH eps hgt hcv
    by_cases hab : c + 1 > 100
    · rw [matchLoop_gt_abort exp stdF b z0 (fuel + 1) psi zH eps c hgt hab] at hcv
      simp [MatchResult.isConverged] at hcv
    · rw [matchLoop_gt_cont exp stdF b z0 fuel psi zH eps c hgt hab] at hcv ⊢
      dsimp only at hcv ⊢
      by_cases h2 : |loopZS exp stdF b psi - z0| > 1e-4
      · have hrec := IH (c + 1) _ _ _ h2 (by simpa using hcv)
        obtain ⟨r, hlast, hle, hlen⟩ := hrec
        refine ⟨r, ?_, hle, ?_⟩
        · rcases hsh : (matchLoop exp stdF b z0 fuel
              { psi with H0 := b.H0 (zH - 0.5 * (loopZS exp stdF b psi - z0)) }
              (zH - 0.5 * (loopZS exp stdF b psi - z0))
              (loopZS exp stdF b psi - z0) (c + 1)).2 with _ | ⟨h1, t1⟩
          · rw [hsh] at hlast
            simp at hlast
          · rw [hsh] at hlast
            rw [List.getLast?_cons_cons]
            exact hlast
        · simp only [List.length_cons]
          omega
      · rw [matchLoop_of_not_gt exp stdF b z0 fuel _ _ _ _ h2] at hcv ⊢
        refine ⟨⟨c, zH, loopZS exp stdF b psi, loopZS exp stdF b psi - z0⟩,
          by simp [List.getLast?], by simpa using not_lt.mp h2, ?_⟩
        simp only [List.length_cons, List.length_nil]
        omega

/-- When the matching loop aborts, exactly `101 - c` rows were printed: the
iteration budget was fully used up. -/
lemma matchLoop_aborted_spec (exp : ℚ → ℚ)
    (stdF : (ℚ → ℚ → ℚ) → (ℚ → ℚ) → ℚ → ℚ → ℚ) (b : RFBucket) (z0 : ℚ) :
    ∀ (fuel c : ℕ) (psi : StationaryExponential) (zH eps : ℚ),
      c ≤ 100 → 101 ≤ c + fuel →
      (matchLoop exp stdF b z0 fuel psi zH eps c).1.isConverged = false →
      (matchLoop exp stdF b z0 fuel psi zH eps c).2.length = 101 - c := by
  intro fuel
  induction fuel with
  | zero =>
    intro c psi zH eps hc hfc
    omega
  | succ fuel IH =>
    intro c psi zH eps hc hfc hab2
    by_cases hgt : |eps| > 1e-4
    · by_cases hab : c + 1 > 100
      · rw [matchLoop_gt_abort exp stdF b z0 (fuel + 1) psi zH eps c hgt hab]
        simp only [List.length_cons, List.length_nil]
        omega
      · rw [matchLoop_gt_cont exp stdF b z0 fuel psi zH eps c hgt hab] at hab2 ⊢
        dsimp only at hab2 ⊢
        have hrec := IH (c + 1) _ _ _ (by omega) (by omega) (by simpa using hab2)
        simp only [List.length_cons]
        omega
    · rw [matchLoop_of_not_gt exp stdF b z0 (fuel + 1) psi zH eps c hgt] at hab2
      simp [MatchResult.isConverged] at hab2

/-- One full matcher run (fuel 101, initial guess `z0`, initial residual 1,
counter 0) converges exactly when its last printed residual is within the
tolerance and at most 100 rows were printed, aborts exactly when 101 rows
were printed, and every non-final row's residual exceeded the tolerance. -/
lemma matchLoop_run_characterization (exp : ℚ → ℚ)
    (stdF : (ℚ → ℚ → ℚ) → (ℚ → ℚ) → ℚ → ℚ → ℚ) (b : RFBucket) (z0 : ℚ)
    (psi : StationaryExponential) :
    ((matchLoop exp stdF b z0 101 psi z0 1 0).1.isConverged = true ↔
      ∃ r : MatchTraceRow,
        (matchLoop exp stdF b z0 101 psi z0 1 0).2.getLast? = some r ∧
        |r.eps| ≤ 1e-4 ∧
        (matchLoop exp stdF b z0 101 psi z0 1 0).2.length ≤ 100) ∧
    ((matchLoop exp stdF b z0 101 psi z0 1 0).1.isConverged = false ↔
      (matchLoop exp stdF b z0 101 psi z0 1 0).2.length = 101) ∧
    (∀ (i : ℕ) (r : MatchTraceRow),
      (matchLoop exp stdF b z0 101 psi z0 1 0).2.get? i = some r →
      i + 1 < (matchLoop exp stdF b z0 101 psi z0 1 0).2.length →
      |r.eps| > 1e-4) := by
  have habs1 : |(1 : ℚ)| > 1e-4 := by
    rw [abs_one]
    norm_num
  refine ⟨⟨?_, ?_⟩, ⟨?_, ?_⟩, ?_⟩
  · intro hcv
    simpa using matchLoop_converged_spec exp stdF b z0 101 0 psi z0 1 habs1 hcv
  · rintro ⟨r, hlast, hle, hlen⟩
    cases hb : (matchLoop exp stdF b z0 101 psi z0 1 0).1.isConverged
    · have := matchLoop_aborted_spec exp stdF b z0 101 0 psi z0 1 (by omega)
        (by omega) hb
      omega
    · rfl
  · intro hab
    simpa using matchLoop_aborted_spec exp stdF b z0 101 0 psi z0 1 (by omega)
      (by omega) hab
  · intro hlen
    cases hb : (matchLoop exp stdF b z0 101 psi z0 1 0).1.isConverged
    · rfl
    · obtain ⟨r, _, _, hlen2⟩ :=
        matchLoop_converged_spec exp stdF b z0 101 0 psi z0 1 habs1 hb
      simp only [Nat.sub_zero] at hlen2
      omega
  · intro i r hr hlen
    exact matchLoop_nonlast_gt exp stdF b z0 101 0 psi z0 1 i r hr hlen

/-- C2 amended: the matcher loop returns (converged) exactly when the
absolute residual falls to `1e-4` OR BELOW — the loop condition is
`abs(eps) > 1e-4`, so a residual of exactly `1e-4` already counts as
converged; when instead every one of the first 100 residuals stays above the
tolerance the trace reaches 101 rows and the run is aborted fatally by
`sys.exit(-1)` right after the diagnostic prints (`MatchResult.aborted`) —
no partially-matched density is returned and the failure is surfaced.  The
conjuncts: converged iff the last printed residual is within tolerance and
at most 100 rows were printed; aborted iff exactly 101 rows were printed;
and every non-final row's residual exceeded the tolerance. -/
theorem set_target_std_convergence (exp sqrt : ℚ → ℚ)
    (dblq : (ℚ → ℚ → ℚ) → (ℚ → ℚ) → ℚ → ℚ → ℚ)
    (stdF : (ℚ → ℚ → ℚ) → (ℚ → ℚ) → ℚ → ℚ → ℚ) (b : RFBucket)
    (psi : StationaryExponential) (sigma : ℚ) :
    ((RFBucket.set_target_std exp sqrt dblq stdF b psi sigma).result.isConverged =
        true ↔
      ∃ r : MatchTraceRow,
        (RFBucket.set_target_std exp sqrt dblq stdF b psi sigma).trace.getLast? =
          some r ∧
        |r.eps| ≤ 1e-4 ∧
        (RFBucket.set_target_std exp sqrt dblq stdF b psi sigma).trace.length ≤
          100) ∧
    ((RFBucket.set_target_std exp sqrt dblq stdF b psi sigma).result.isConverged =
        false ↔
      (RFBucket.set_target_std exp sqrt dblq stdF b psi sigma).trace.length =
        101) ∧
    (∀ (i : ℕ) (r : MatchTraceRow),
      (RFBucket.set_target_std exp sqrt dblq stdF b psi sigma).trace.get? i =
        some r →
      i + 1 <
        (RFBucket.set_target_std exp sqrt dblq stdF b psi sigma).trace.length →
      |r.eps| > 1e-4) := by
  unfold RFBucket.set_target_std
  dsimp only
  exact matchLoop_run_characterization exp stdF b sigma _

unseal Rat.add Rat.mul Rat.sub Rat.inv Rat.ofScientific

/-- A minimal concrete Hamiltonian provider for the concrete runs below:
zero Hamiltonian, unit separatrix, bucket `z in (0, 1)`, `dp in (-1, 1)`,
scale map constantly `1`. -/
def rfFlat : RFSystemModel :=
  { circumference := 1
    hamiltonian := fun _ _ => 0
    separatrix := fun _ => 1
    z_extrema := (0, 0)
    z_sep := (0, 1)
    p_sep := 1
    H0 := fun _ => 1 }

/-- Counterexample to C1 at a concrete run (target `sigma = 1`, variance
strategy constantly `2`): the second printed row is
`(counter, zH, zS, eps) = (1, 1/2, 2, 1)`; its residual `1` equals
`zS - sigma = 2 - 1` against the fixed target and is NOT
`zS - z_guess = 2 - 1/2`. -/
theorem set_target_std_residual_counterexample :
    (RFBucket.set_target_std (fun q => q + 1) (fun q => q) (fun _ _ _ _ => 0)
        (fun _ _ _ _ => 2) (RFBucket.init 1 rfFlat)
        (StationaryExponential.init (RFBucket.init 1 rfFlat).hamiltonian)
        1).trace.get? 1 = some ⟨1, 1/2, 2, 1⟩ ∧
    ¬((⟨1, 1/2, 2, 1⟩ : MatchTraceRow).eps =
        (⟨1, 1/2, 2, 1⟩ : MatchTraceRow).zS -
          (⟨1, 1/2, 2, 1⟩ : MatchTraceRow).zH) :=
  ⟨by decide, by decide⟩

/-- Counterexample to C2 at a concrete run: with target `sigma = 1` and a
variance strategy constantly `1 + 1/10000`, the single residual is exactly
`1/10000 = 1e-4`; the loop condition `abs(eps) > 1e-4` fails, so the matcher
returns converged — although the absolute residual did NOT fall strictly
below `1e-4`. -/
theorem set_target_std_convergence_counterexample :
    (RFBucket.set_target_std (fun q => q + 1) (fun q => q) (fun _ _ _ _ => 0)
        (fun _ _ _ _ => 1 + 1/10000) (RFBucket.init 1 rfFlat)
        (StationaryExponential.init (RFBucket.init 1 rfFlat).hamiltonian)
        1).result.isConverged = true ∧
    (RFBucket.set_target_std (fun q => q + 1) (fun q => q) (fun _ _ _ _ => 0)
        (fun _ _ _ _ => 1 + 1/10000) (RFBucket.init 1 rfFlat)
        (StationaryExponential.init (RFBucket.init 1 rfFlat).hamiltonian)
        1).trace.map MatchTraceRow.eps = [1/10000] ∧
    ¬(|(1/10000 : ℚ)| < 1e-4) := by
  refine ⟨by decide, by decide, ?_⟩
  rw [abs_of_pos (by norm_num)]
  norm_num

/-- The matching loop only ever rewrites `psi.H0`: whatever density object a
converged run returns carries the `Hmax` the loop was entered with. -/
lemma matchLoop_psiOf_hmax (exp : ℚ → ℚ)
    (stdF : (ℚ → ℚ → ℚ) → (ℚ → ℚ) → ℚ → ℚ → ℚ) (b : RFBucket) (z0 : ℚ) :
    ∀ (fuel c : ℕ) (psi : StationaryExponential) (zH eps : ℚ),
      ((matchLoop exp stdF b z0 fuel psi zH eps c).1.psiOf).map
          StationaryExponential.Hmax =
        ((matchLoop exp stdF b z0 fuel psi zH eps c).1.psiOf).map
          (fun _ => psi.Hmax) := by
  intro fuel
  induction fuel with
  | zero =>
    intro c psi zH eps
    by_cases hgt : |eps| > 1e-4
    · by_cases hab : c + 1 > 100
      · rw [matchLoop_gt_abort exp stdF b z0 0 psi zH eps c hgt hab]
        rfl
      · rw [matchLoop_gt_zero_fuel exp stdF b z0 psi zH eps c hgt hab]
        rfl
    · rw [matchLoop_of_not_gt exp stdF b z0 0 psi zH eps c hgt]
      rfl
  | succ fuel IH =>
    intro c psi zH eps
    by_cases hgt : |eps| > 1e-4
    · by_cases hab : c + 1 > 100
      · rw [matchLoop_gt_abort exp stdF b z0 (fuel + 1) psi zH eps c hgt hab]
        rfl
      · rw [matchLoop_gt_cont exp stdF b z0 fuel psi zH eps c hgt hab]
        dsimp only
        exact IH (c + 1) _ _ _
    · rw [matchLoop_of_not_gt exp stdF b z0 (fuel + 1) psi zH eps c hgt]
      rfl

/-- C4 amended: in `RFBucket._set_target_std` the feasibility pre-check
still evaluates `psi` with the incoming `Hmax` — for the `psi` freshly built
by `RFBucket.generate` that is the constructor value `H(0, 0)` at the
origin — because `psi.Hmax = np.amax(hamiltonian(z_extrema, 0))` is only
assigned AFTER `_test_maximum_std` returns; from then on the iterative solve
(and hence any converged density) uses the extrema value. -/
theorem set_target_std_hmax (exp sqrt : ℚ → ℚ)
    (dblq : (ℚ → ℚ → ℚ) → (ℚ → ℚ) → ℚ → ℚ → ℚ)
    (stdF : (ℚ → ℚ → ℚ) → (ℚ → ℚ) → ℚ → ℚ → ℚ) (b : RFBucket)
    (psi : StationaryExponential) (sigma : ℚ) :
    (RFBucket.set_target_std exp sqrt dblq stdF b psi sigma).precheckPsi.Hmax =
      psi.Hmax ∧
    (RFBucket.set_target_std exp sqrt dblq stdF b psi sigma).precheckPsi.H0 =
      b.H0 b.circumference ∧
    (StationaryExponential.init b.hamiltonian).Hmax = b.hamiltonian 0 0 ∧
    (RFBucket.set_target_std exp sqrt dblq stdF b psi sigma).loopPsi.Hmax =
      max (b.hamiltonian b.z_extrema.1 0) (b.hamiltonian b.z_extrema.2 0) ∧
    (((RFBucket.set_target_std exp sqrt dblq stdF b psi sigma).result.psiOf).map
        StationaryExponential.Hmax =
      ((RFBucket.set_target_std exp sqrt dblq stdF b psi sigma).result.psiOf).map
        (fun _ =>
          (RFBucket.set_target_std exp sqrt dblq stdF b psi
            sigma).loopPsi.Hmax)) := by
  refine ⟨rfl, rfl, rfl, rfl, ?_⟩
  unfold RFBucket.set_target_std
  dsimp only
  exact matchLoop_psiOf_hmax exp stdF b sigma 101 0 _ sigma 1

/-- A concrete provider whose Hamiltonian is NOT maximal at the origin:
`H(z, dp) = z`, extrema at `(1, -1)`. -/
def rfTilted : RFSystemModel :=
  { circumference := 1
    hamiltonian := fun z _ => z
    separatrix := fun _ => 1
    z_extrema := (1, -1)
    z_sep := (-1, 1)
    p_sep := 1
    H0 := fun _ => 1 }

/-- Counterexample to C4 at a concrete run: for the provider `rfTilted` with
`H(z, dp) = z`, the density object used by the feasibility pre-check carries
`Hmax = H(0, 0) = 0` (the constructor value), which differs from the
Hamiltonian at the position extrema `max(H(1, 0), H(-1, 0)) = 1` — so the
pre-check evaluations do NOT use the extrema value. -/
theorem precheck_hmax_counterexample :
    (RFBucket.set_target_std (fun q => q + 1) (fun q => q) (fun _ _ _ _ => 0)
        (fun _ _ _ _ => 1) (RFBucket.init 1 rfTilted)
        (StationaryExponential.init (RFBucket.init 1 rfTilted).hamiltonian)
        1).precheckPsi.Hmax = 0 ∧
    max ((RFBucket.init 1 rfTilted).hamiltonian
          (RFBucket.init 1 rfTilted).z_extrema.1 0)
        ((RFBucket.init 1 rfTilted).hamiltonian
          (RFBucket.init 1 rfTilted).z_extrema.2 0) = 1 ∧
    ¬((0 : ℚ) = 1) := by
  refine ⟨rfl, ?_, by norm_num⟩
  show max (1 : ℚ) (-1) = 1
  rw [max_eq_left (by norm_num : (-1 : ℚ) ≤ 1)]

/-- C6: the feasibility pre-check first sets `psi.H0 = H0(circumference)`
(leaving everything else of `psi` unchanged), computes the maximal rms bunch
length with the variance routines on that density, warns per estimate
exactly when `sigma > zS * 0.95` for a finite estimate (a non-finite one
never warns), and matching proceeds regardless of the warnings: the
matcher's result and trace do not depend on the quadrature inputs
`sqrt`/`dblq` that determine the estimates and the warning flags. -/
theorem test_maximum_std_spec (exp sqrt sqrt2 : ℚ → ℚ)
    (dblq dblq2 : (ℚ → ℚ → ℚ) → (ℚ → ℚ) → ℚ → ℚ → ℚ)
    (stdF : (ℚ → ℚ → ℚ) → (ℚ → ℚ) → ℚ → ℚ → ℚ) (b : RFBucket)
    (psi : StationaryExponential) (sigma : ℚ) :
    (RFBucket.test_maximum_std exp sqrt dblq b psi sigma).psi =
      { psi with H0 := b.H0 b.circumference } ∧
    (RFBucket.test_maximum_std exp sqrt dblq b psi sigma).zSs =
      [RFBucket.compute_std_quad sqrt dblq
          (StationaryExponential.function exp
            { psi with H0 := b.H0 b.circumference })
          b.separatrix b.z_sep.1 b.z_sep.2,
        RFBucket.compute_std_cumtrapz sqrt
          (StationaryExponential.function exp
            { psi with H0 := b.H0 b.circumference })
          b.separatrix b.z_sep.1 b.z_sep.2,
        RFBucket.compute_std_romberg sqrt
          (StationaryExponential.function exp
            { psi with H0 := b.H0 b.circumference })
          b.separatrix b.z_sep.1 b.z_sep.2] ∧
    (RFBucket.test_maximum_std exp sqrt dblq b psi sigma).warnings =
      (RFBucket.test_maximum_std exp sqrt dblq b psi sigma).zSs.map
        (npWarn sigma) ∧
    (∀ v : NpVal,
      npWarn sigma v = true ↔ ∃ q : ℚ, v = NpVal.num q ∧ q * 0.95 < sigma) ∧
    (RFBucket.set_target_std exp sqrt dblq stdF b psi sigma).result =
      (RFBucket.set_target_std exp sqrt2 dblq2 stdF b psi sigma).result ∧
    (RFBucket.set_target_std exp sqrt dblq stdF b psi sigma).trace =
      (RFBucket.set_target_std exp sqrt2 dblq2 stdF b psi sigma).trace := by
  refine ⟨rfl, rfl, rfl, ?_, rfl, rfl⟩
  intro v
  cases v with
  | num q => simp [npWarn]
  | nonfinite => simp [npWarn]

/-- The particle-buffer collaborator handed to `RFBucket.generate`:
`n_macroparticles` plus the coordinate attributes; `psi` is the extra
attribute the sampler sets on it. -/
structure Particles where
  n_macroparticles : ℕ
  x : List ℚ
  xp : List ℚ
  y : List ℚ
  yp : List ℚ
  z : List ℚ
  dp : List ℚ
  psi : Option (ℚ → ℚ → ℚ)

/-- One proposal of the rejection loop: from the uniform triple
`(a, bv, s)` form `u = xmin + lx * a`, `v = ymin + ly * bv` and accept
`(u, v)` exactly when `s < psi_interp(u, v)`. -/
def acceptTest (psi_i : ℚ → ℚ → ℚ) (xmin lx ymin ly : ℚ)
    (t : ℚ × ℚ × ℚ) : Option (ℚ × ℚ) :=
  if t.2.2 < psi_i (xmin + lx * t.1) (ymin + ly * t.2.1) then
    some (xmin + lx * t.1, ymin + ly * t.2.1)
  else none

/-- The accepted proposals, in order, of a draw stream. -/
def acceptedOf (psi_i : ℚ → ℚ → ℚ) (xmin lx ymin ly : ℚ)
    (draws : List (ℚ × ℚ × ℚ)) : List (ℚ × ℚ) :=
  draws.filterMap (acceptTest psi_i xmin lx ymin ly)

/-- The `while j < particles.n_macroparticles` rejection loop of
`RFBucket.generate`: each iteration consumes one triple of global
`np.random.random()` draws (`u`-draw, `v`-draw, `s`-draw), accepts iff
`s < psi_interp(u, v)`, and stops after `n` acceptances.  `none` models a
loop that never finishes within the supplied stream. -/
def rejectionLoop (psi_i : ℚ → ℚ → ℚ) (xmin lx ymin ly : ℚ) :
    ℕ → List (ℚ × ℚ × ℚ) → Option (List (ℚ × ℚ))
  | 0, _ => some []
  | _ + 1, [] => none
  | n + 1, (a, bv, s) :: rest =>
    if s < psi_i (xmin + lx * a) (ymin + ly * bv) then
      (rejectionLoop psi_i xmin lx ymin ly n rest).map
        (fun acc => (xmin + lx * a, ymin + ly * bv) :: acc)
    else
      rejectionLoop psi_i xmin lx ymin ly (n + 1) rest

/-- A draw of the shared uniform stream lies in `[0, 1)` in each component. -/
def inUnitTriple (t : ℚ × ℚ × ℚ) : Prop :=
  0 ≤ t.1 ∧ t.1 < 1 ∧ 0 ≤ t.2.1 ∧ t.2.1 < 1 ∧ 0 ≤ t.2.2 ∧ t.2.2 < 1

instance (t : ℚ × ℚ × ℚ) : Decidable (inUnitTriple t) := by
  unfold inUnitTriple
  infer_instance

/-- Unfolding one accepted proposal of the rejection loop. -/
lemma rejectionLoop_cons_accept (psi_i : ℚ → ℚ → ℚ) (xmin lx ymin ly : ℚ)
    (m : ℕ) (a bv sdraw : ℚ) (ts : List (ℚ × ℚ × ℚ))
    (hacc : sdraw < psi_i (xmin + lx * a) (ymin + ly * bv)) :
    rejectionLoop psi_i xmin lx ymin ly (m + 1) ((a, bv, sdraw) :: ts) =
      (rejectionLoop psi_i xmin lx ymin ly m ts).map
        (fun acc => (xmin + lx * a, ymin + ly * bv) :: acc) := by
  simp only [rejectionLoop]
  rw [if_pos hacc]

/-- Unfolding one rejected proposal of the rejection loop. -/
lemma rejectionLoop_cons_reject (psi_i : ℚ → ℚ → ℚ) (xmin lx ymin ly : ℚ)
    (m : ℕ) (a bv sdraw : ℚ) (ts : List (ℚ × ℚ × ℚ))
    (hacc : ¬(sdraw < psi_i (xmin + lx * a) (ymin + ly * bv))) :
    rejectionLoop psi_i xmin lx ymin ly (m + 1) ((a, bv, sdraw) :: ts) =
      rejectionLoop psi_i xmin lx ymin ly (m + 1) ts := by
  simp only [rejectionLoop]
  rw [if_neg hacc]

/-- The rejection loop succeeds exactly when the stream holds enough
accepted proposals, and then returns precisely the first `n` accepted
proposals in order. -/
lemma rejectionLoop_spec (psi_i : ℚ → ℚ → ℚ) (xmin lx ymin ly : ℚ) :
    ∀ (draws : List (ℚ × ℚ × ℚ)) (n : ℕ) (out : List (ℚ × ℚ)),
      rejectionLoop psi_i xmin lx ymin ly n draws = some out ↔
      n ≤ (acceptedOf psi_i xmin lx ymin ly draws).length ∧
        out = (acceptedOf psi_i xmin lx ymin ly draws).take n := by
  intro draws
  induction draws with
  | nil =>
    intro n out
    cases n with
    | zero => simp [rejectionLoop, acceptedOf]
    | succ m => simp [rejectionLoop, acceptedOf]
  | cons t ts IH =>
    intro n out
    obtain ⟨a, bv, sdraw⟩ := t
    cases n with
    | zero =>
      simp only [rejectionLoop, Option.some.injEq]
      constructor
      · intro h
        exact ⟨Nat.zero_le _, by rw [← h]; simp⟩
      · intro ⟨_, h⟩
        rw [h]
        simp
    | succ m =>
      by_cases hacc : sdraw < psi_i (xmin + lx * a) (ymin + ly * bv)
      · have hsome : acceptTest psi_i xmin lx ymin ly (a, bv, sdraw) =
            some (xmin + lx * a, ymin + ly * bv) := by
          simp [acceptTest, hacc]
        rw [rejectionLoop_cons_accept psi_i xmin lx ymin ly m a bv sdraw ts hacc]
        unfold acceptedOf at IH ⊢
        rw [List.filterMap_cons_some hsome]
        constructor
        · intro h
          obtain ⟨acc, hacc2, hout⟩ := Option.map_eq_some'.mp h
          have hIH := (IH m acc).mp hacc2
          constructor
          · simp only [List.length_cons]
            omega
          · rw [← hout, List.take_succ_cons, hIH.2]
        · rintro ⟨hlen, hout⟩
          have hm : m ≤
              (List.filterMap (acceptTest psi_i xmin lx ymin ly) ts).length := by
            simp only [List.length_cons] at hlen
            omega
          have hrl := (IH m
            ((List.filterMap (acceptTest psi_i xmin lx ymin ly) ts).take
              m)).mpr ⟨hm, rfl⟩
          rw [hrl]
          rw [hout, List.take_succ_cons]
          rfl
      · have hnone : acceptTest psi_i xmin lx ymin ly (a, bv, sdraw) = none := by
          simp [acceptTest, hacc]
        rw [rejectionLoop_cons_reject psi_i xmin lx ymin ly m a bv sdraw ts hacc]
        unfold acceptedOf at IH ⊢
        rw [List.filterMap_cons_none hnone]
        exact IH (m + 1) out

/-- Every accepted sample of an in-range draw stream lies in the proposal
box `[xmin, xmin + lx] x [ymin, ymin + ly]`. -/
lemma acceptedOf_mem_box (psi_i : ℚ → ℚ → ℚ) (xmin lx ymin ly : ℚ)
    (draws : List (ℚ × ℚ × ℚ)) (hd : ∀ t ∈ draws, inUnitTriple t)
    (hlx : 0 ≤ lx) (hly : 0 ≤ ly) :
    ∀ pr ∈ acceptedOf psi_i xmin lx ymin ly draws,
      xmin ≤ pr.1 ∧ pr.1 ≤ xmin + lx ∧ ymin ≤ pr.2 ∧ pr.2 ≤ ymin + ly := by
  intro pr hpr
  unfold acceptedOf at hpr
  rw [List.mem_filterMap] at hpr
  obtain ⟨t, ht, hft⟩ := hpr
  unfold acceptTest at hft
  by_cases hc : t.2.2 < psi_i (xmin + lx * t.1) (ymin + ly * t.2.1)
  · rw [if_pos hc] at hft
    have hpr2 := (Option.some.inj hft).symm
    subst hpr2
    obtain ⟨h1, h2, h3, h4, _, _⟩ := hd t ht
    have hu1 : 0 ≤ lx * t.1 := mul_nonneg hlx h1
    have hu2 : lx * t.1 ≤ lx := by
      have := mul_le_mul_of_nonneg_left (le_of_lt h2) hlx
      simpa using this
    have hv1 : 0 ≤ ly * t.2.1 := mul_nonneg hly h3
    have hv2 : ly * t.2.1 ≤ ly := by
      have := mul_le_mul_of_nonneg_left (le_of_lt h4) hly
      simpa using this
    refine ⟨?_, ?_, ?_, ?_⟩ <;> dsimp only <;> linarith
  · rw [if_neg hc] at hft
    exact absurd hft (by simp)

/-- The interpolated density grid of `RFBucket.generate`:
`xx = np.linspace(xmin, xmax, 129)` and `yy = np.linspace(ymin, ymax, 129)`
(`nx = ny = 128` bins), `HH = psi(XX, YY)` on the meshgrid, handed to scipy
`interp2d` (the abstract parameter `interp`). -/
def RFBucket.gridInterp (exp : ℚ → ℚ)
    (interp : List ℚ → List ℚ → List (List ℚ) → ℚ → ℚ → ℚ) (b : RFBucket)
    (psiM : StationaryExponential) : ℚ → ℚ → ℚ :=
  interp (linspace b.z_sep.1 b.z_sep.2 129) (linspace (-b.p_sep) b.p_sep 129)
    ((linspace (-b.p_sep) b.p_sep 129).map (fun yv =>
      (linspace b.z_sep.1 b.z_sep.2 129).map (fun xv =>
        psiM.function exp xv yv)))

/-- `RFBucket.generate(particles)`: match the stationary density to the
target `sigma_z` (a fatal matcher abort ends the request: `none`), build the
interpolated grid over
`[z_sep[0], z_sep[1]] x [-p_sep, p_sep]`, rejection-sample
`n_macroparticles` pairs into the local arrays `x`, `y` (a stream too short
to finish the loop models non-termination: `none`), and only then assign
`particles.z`, `particles.dp` and `particles.psi` in one go. -/
def RFBucket.generate (exp sqrt : ℚ → ℚ)
    (dblq : (ℚ → ℚ → ℚ) → (ℚ → ℚ) → ℚ → ℚ → ℚ)
    (stdF : (ℚ → ℚ → ℚ) → (ℚ → ℚ) → ℚ → ℚ → ℚ)
    (interp : List ℚ → List ℚ → List (List ℚ) → ℚ → ℚ → ℚ) (b : RFBucket)
    (draws : List (ℚ × ℚ × ℚ)) (particles : Particles) : Option Particles :=
  let mo := RFBucket.set_target_std exp sqrt dblq stdF b
    (StationaryExponential.init b.hamiltonian) b.sigma_z
  match mo.result with
  | MatchResult.aborted => none
  | MatchResult.converged psiM _ _ =>
    let psi_i := RFBucket.gridInterp exp interp b psiM
    match rejectionLoop psi_i b.z_sep.1 (b.z_sep.2 - b.z_sep.1) (-b.p_sep)
        (b.p_sep - -b.p_sep) particles.n_macroparticles draws with
    | none => none
    | some pairs =>
      some { particles with
        z := pairs.map Prod.fst
        dp := pairs.map Prod.snd
        psi := some (psiM.function exp) }

/-- C5: assuming the rejection loop finishes (the generated result is
`some`), `RFBucket.generate` writes exactly `n_macroparticles` samples into
`particles.z`/`particles.dp`; the written pairs are precisely the first
`n_macroparticles` proposals `(u, v) = (xmin + lx*a, ymin + ly*bv)` whose
independent draw `s` satisfied `s < psi_interp(u, v)` (in acceptance order),
and every written pair lies inside the box
`[z_sep[0], z_sep[1]] x [-p_sep, p_sep]`. -/
theorem rfbucket_generate_samples (exp sqrt : ℚ → ℚ)
    (dblq : (ℚ → ℚ → ℚ) → (ℚ → ℚ) → ℚ → ℚ → ℚ)
    (stdF : (ℚ → ℚ → ℚ) → (ℚ → ℚ) → ℚ → ℚ → ℚ)
    (interp : List ℚ → List ℚ → List (List ℚ) → ℚ → ℚ → ℚ) (b : RFBucket)
    (draws : List (ℚ × ℚ × ℚ)) (particles p2 : Particles)
    (hd : ∀ t ∈ draws, inUnitTriple t)
    (hx : b.z_sep.1 ≤ b.z_sep.2) (hp : 0 ≤ b.p_sep)
    (hgen : RFBucket.generate exp sqrt dblq stdF interp b draws particles =
      some p2) :
    p2.z.length = particles.n_macroparticles ∧
    p2.dp.length = particles.n_macroparticles ∧
    (∃ (psiM : StationaryExponential) (zH : ℚ) (k : ℕ),
      (RFBucket.set_target_std exp sqrt dblq stdF b
          (StationaryExponential.init b.hamiltonian) b.sigma_z).result =
        MatchResult.converged psiM zH k ∧
      p2.z.zip p2.dp =
        (acceptedOf (RFBucket.gridInterp exp interp b psiM) b.z_sep.1
          (b.z_sep.2 - b.z_sep.1) (-b.p_sep) (b.p_sep - -b.p_sep)
          draws).take particles.n_macroparticles) ∧
    (∀ pr ∈ p2.z.zip p2.dp,
      b.z_sep.1 ≤ pr.1 ∧ pr.1 ≤ b.z_sep.2 ∧
      -b.p_sep ≤ pr.2 ∧ pr.2 ≤ b.p_sep) := by
  unfold RFBucket.generate at hgen
  dsimp only at hgen
  cases hres : (RFBucket.set_target_std exp sqrt dblq stdF b
      (StationaryExponential.init b.hamiltonian) b.sigma_z).result with
  | aborted =>
    rw [hres] at hgen
    simp at hgen
  | converged psiM zHc kc =>
    rw [hres] at hgen
    dsimp only at hgen
    cases hrej : rejectionLoop (RFBucket.gridInterp exp interp b psiM)
        b.z_sep.1 (b.z_sep.2 - b.z_sep.1) (-b.p_sep) (b.p_sep - -b.p_sep)
        particles.n_macroparticles draws with
    | none =>
      rw [hrej] at hgen
      simp at hgen
    | some pairs =>
      rw [hrej] at hgen
      dsimp only at hgen
      have hp2 := (Option.some.inj hgen).symm
      subst hp2
      obtain ⟨hlen, hpairs⟩ :=
        (rejectionLoop_spec (RFBucket.gridInterp exp interp b psiM) b.z_sep.1
          (b.z_sep.2 - b.z_sep.1) (-b.p_sep) (b.p_sep - -b.p_sep) draws
          particles.n_macroparticles pairs).mp hrej
      have hzip : ((pairs.map Prod.fst).zip (pairs.map Prod.snd)) = pairs := by
        rw [List.zip_map']
        simp
      have hplen : pairs.length = particles.n_macroparticles := by
        rw [hpairs, List.length_take]
        omega
      refine ⟨?_, ?_, ?_, ?_⟩
      · dsimp only
        rw [List.length_map]
        exact hplen
      · dsimp only
        rw [List.length_map]
        exact hplen
      · refine ⟨psiM, zHc, kc, rfl, ?_⟩
        dsimp only
        rw [hzip, hpairs]
      · intro pr hpr
        dsimp only at hpr
        rw [hzip, hpairs] at hpr
        have hmem := List.mem_of_mem_take hpr
        have hbox := acceptedOf_mem_box (RFBucket.gridInterp exp interp b psiM)
          b.z_sep.1 (b.z_sep.2 - b.z_sep.1) (-b.p_sep) (b.p_sep - -b.p_sep)
          draws hd (by linarith) (by linarith) pr hmem
        obtain ⟨hb1, hb2, hb3, hb4⟩ := hbox
        exact ⟨hb1, by linarith, hb3, by linarith⟩

/-- C10: `RFBucket.generate` accumulates the accepted samples in local
arrays and, only after the rejection loop has produced all
`n_macroparticles` of them, assigns the buffer attributes `z`, `dp` and
`psi` in one step; `x`, `xp`, `y`, `yp` and `n_macroparticles` are left
unchanged, and since the assignment is the last step, no partially filled
`z`/`dp` array is ever visible on the buffer (an unfinished loop yields
`none`: nothing at all was assigned). -/
theorem rfbucket_generate_frame (exp sqrt : ℚ → ℚ)
    (dblq : (ℚ → ℚ → ℚ) → (ℚ → ℚ) → ℚ → ℚ → ℚ)
    (stdF : (ℚ → ℚ → ℚ) → (ℚ → ℚ) → ℚ → ℚ → ℚ)
    (interp : List ℚ → List ℚ → List (List ℚ) → ℚ → ℚ → ℚ) (b : RFBucket)
    (draws : List (ℚ × ℚ × ℚ)) (particles p2 : Particles)
    (hgen : RFBucket.generate exp sqrt dblq stdF interp b draws particles =
      some p2) :
    p2.x = particles.x ∧ p2.xp = particles.xp ∧ p2.y = particles.y ∧
    p2.yp = particles.yp ∧
    p2.n_macroparticles = particles.n_macroparticles ∧
    p2.z.length = particles.n_macroparticles ∧
    p2.dp.length = particles.n_macroparticles ∧
    (∃ (psiM : StationaryExponential) (zH : ℚ) (k : ℕ),
      (RFBucket.set_target_std exp sqrt dblq stdF b
          (StationaryExponential.init b.hamiltonian) b.sigma_z).result =
        MatchResult.converged psiM zH k ∧
      p2.psi = some (psiM.function exp)) := by
  unfold RFBucket.generate at hgen
  dsimp only at hgen
  cases hres : (RFBucket.set_target_std exp sqrt dblq stdF b
      (StationaryExponential.init b.hamiltonian) b.sigma_z).result with
  | aborted =>
    rw [hres] at hgen
    simp at hgen
  | converged psiM zHc kc =>
    rw [hres] at hgen
    dsimp only at hgen
    cases hrej : rejectionLoop (RFBucket.gridInterp exp interp b psiM)
        b.z_sep.1 (b.z_sep.2 - b.z_sep.1) (-b.p_sep) (b.p_sep - -b.p_sep)
        particles.n_macroparticles draws with
    | none =>
      rw [hrej] at hgen
      simp at hgen
    | some pairs =>
      rw [hrej] at hgen
      dsimp only at hgen
      have hp2 := (Option.some.inj hgen).symm
      subst hp2
      obtain ⟨hlen, hpairs⟩ :=
        (rejectionLoop_spec (RFBucket.gridInterp exp interp b psiM) b.z_sep.1
          (b.z_sep.2 - b.z_sep.1) (-b.p_sep) (b.p_sep - -b.p_sep) draws
          particles.n_macroparticles pairs).mp hrej
      have hplen : pairs.length = particles.n_macroparticles := by
        rw [hpairs, List.length_take]
        omega
      refine ⟨rfl, rfl, rfl, rfl, rfl, ?_, ?_, psiM, zHc, kc, rfl, rfl⟩
      · dsimp only
        rw [List.length_map]
        exact hplen
      · dsimp only
        rw [List.length_map]
        exact hplen

/-- C9: `RFBucket.generate` is deterministic — two runs with the same
Hamiltonian provider, the same target `sigma_z`, the same abstract
collaborators and an identical shared random stream (what an identical seed
of numpy's global `RandomState` produces) return identical results, and in
particular element-wise identical `z` and `dp` arrays. -/
theorem rfbucket_generate_deterministic (exp sqrt : ℚ → ℚ)
    (dblq : (ℚ → ℚ → ℚ) → (ℚ → ℚ) → ℚ → ℚ → ℚ)
    (stdF : (ℚ → ℚ → ℚ) → (ℚ → ℚ) → ℚ → ℚ → ℚ)
    (interp : List ℚ → List ℚ → List (List ℚ) → ℚ → ℚ → ℚ) (sigma : ℚ)
    (rf1 rf2 : RFSystemModel) (draws1 draws2 : List (ℚ × ℚ × ℚ))
    (p1 p2 : Particles) (hrf : rf1 = rf2) (hdr : draws1 = draws2)
    (hp : p1 = p2) :
    RFBucket.generate exp sqrt dblq stdF interp (RFBucket.init sigma rf1)
        draws1 p1 =
      RFBucket.generate exp sqrt dblq stdF interp (RFBucket.init sigma rf2)
        draws2 p2 := by
  subst hrf
  subst hdr
  subst hp
  rfl

/-- An empty one-particle buffer for the concrete runs. -/
def particlesW : Particles := ⟨1, [], [], [], [], [], [], none⟩

/-- A single all-zero uniform draw triple. -/
def drawsW : List (ℚ × ℚ × ℚ) := [(0, 0, 0)]

/-- Witness for C5 at a concrete run: target `1/2`, constant variance
strategy `1/2` (the matcher converges on its first iteration), constant
interpolant `1`, one accepted draw: the buffer receives exactly one
sample. -/
theorem rfbucket_generate_samples_witness :
    ((RFBucket.generate (fun q => q + 1) (fun q => q) (fun _ _ _ _ => 0)
        (fun _ _ _ _ => 1/2) (fun _ _ _ _ _ => 1) (RFBucket.init (1/2) rfFlat)
        drawsW particlesW).getD particlesW).z.length =
      particlesW.n_macroparticles :=
  (rfbucket_generate_samples (fun q => q + 1) (fun q => q) (fun _ _ _ _ => 0)
    (fun _ _ _ _ => 1/2) (fun _ _ _ _ _ => 1) (RFBucket.init (1/2) rfFlat)
    drawsW particlesW
    ((RFBucket.generate (fun q => q + 1) (fun q => q) (fun _ _ _ _ => 0)
      (fun _ _ _ _ => 1/2) (fun _ _ _ _ _ => 1) (RFBucket.init (1/2) rfFlat)
      drawsW particlesW).getD particlesW)
    (by decide) (by decide) (by decide) (by rfl)).1

/-- A populated one-particle buffer for the frame-condition run. -/
def particlesW2 : Particles := ⟨1, [3], [4], [5], [6], [7], [8], none⟩

/-- A single centred uniform draw triple. -/
def drawsW2 : List (ℚ × ℚ × ℚ) := [(1/2, 1/2, 1/2)]

/-- Witness for C10 at a concrete run: the transverse attributes and the
particle count of the buffer are untouched by `RFBucket.generate`. -/
theorem rfbucket_generate_frame_witness :
    ((RFBucket.generate (fun q => q + 1) (fun q => q) (fun _ _ _ _ => 0)
        (fun _ _ _ _ => 1/2) (fun _ _ _ _ _ => 1) (RFBucket.init (1/2) rfFlat)
        drawsW2 particlesW2).getD particlesW2).x = particlesW2.x ∧
    ((RFBucket.generate (fun q => q + 1) (fun q => q) (fun _ _ _ _ => 0)
        (fun _ _ _ _ => 1/2) (fun _ _ _ _ _ => 1) (RFBucket.init (1/2) rfFlat)
        drawsW2 particlesW2).getD particlesW2).n_macroparticles =
      particlesW2.n_macroparticles :=
  ⟨(rfbucket_generate_frame (fun q => q + 1) (fun q => q) (fun _ _ _ _ => 0)
      (fun _ _ _ _ => 1/2) (fun _ _ _ _ _ => 1) (RFBucket.init (1/2) rfFlat)
      drawsW2 particlesW2
      ((RFBucket.generate (fun q => q + 1) (fun q => q) (fun _ _ _ _ => 0)
        (fun _ _ _ _ => 1/2) (fun _ _ _ _ _ => 1) (RFBucket.init (1/2) rfFlat)
        drawsW2 particlesW2).getD particlesW2) (by rfl)).1,
    (rfbucket_generate_frame (fun q => q + 1) (fun q => q) (fun _ _ _ _ => 0)
      (fun _ _ _ _ => 1/2) (fun _ _ _ _ _ => 1) (RFBucket.init (1/2) rfFlat)
      drawsW2 particlesW2
      ((RFBucket.generate (fun q => q + 1) (fun q => q) (fun _ _ _ _ => 0)
        (fun _ _ _ _ => 1/2) (fun _ _ _ _ _ => 1) (RFBucket.init (1/2) rfFlat)
        drawsW2 particlesW2).getD particlesW2) (by rfl)).2.2.2.2.1⟩

/-- Witness for C9 at a concrete run: the two identically-configured runs
return the same result. -/
theorem rfbucket_generate_deterministic_witness :
    RFBucket.generate (fun q => q + 1) (fun q => q) (fun _ _ _ _ => 0)
        (fun _ _ _ _ => 1/2) (fun _ _ _ _ _ => 1) (RFBucket.init (1/2) rfFlat)
        drawsW particlesW =
      RFBucket.generate (fun q => q + 1) (fun q => q) (fun _ _ _ _ => 0)
        (fun _ _ _ _ => 1/2) (fun _ _ _ _ _ => 1) (RFBucket.init (1/2) rfFlat)
        drawsW particlesW :=
  rfbucket_generate_deterministic (fun q => q + 1) (fun q => q)
    (fun _ _ _ _ => 0) (fun _ _ _ _ => 1/2) (fun _ _ _ _ _ => 1) (1/2) rfFlat
    rfFlat drawsW drawsW particlesW particlesW rfl rfl rfl
